import Mathlib

/-!
Verification of the SPIRE server core against its specification.

The development shallowly embeds the data model and the operations of the
node API, the entry resolver, the server CA, and the registration API.
Components whose implementation is absent from the repository snapshot
(only their tests are present) are modelled from the specification; each
such definition carries a doc comment saying so.
-/

set_option maxHeartbeats 1000000

/-- A selector is a `(type, value)` pair attributed to a node or required by a
registration entry. -/
abbrev Selector := String × String

/-- A registration entry, following the `common.RegistrationEntry` record used
throughout the repository: stable `entryId`, `parentId`, `spiffeId`, a selector
set, a TTL and the `federatesWith` trust-domain list. -/
structure RegistrationEntry where
  entryId : String
  parentId : String
  spiffeId : String
  selectors : List Selector
  ttl : Int
  federatesWith : List String
deriving DecidableEq, Repr

/-- Datastore listing filtered by `parent_id` (the `ByParentId` filter of
`ListRegistrationEntries`). -/
def listByParentId (ds : List RegistrationEntry) (pid : String) : List RegistrationEntry :=
  ds.filter (fun e => e.parentId = pid)

/-- Boolean subset test between selector sets. -/
def selSubset (xs ys : List Selector) : Bool :=
  xs.all (fun s => ys.contains s)

/-- Datastore listing with the `BySelectors` filter in `MATCH_SUBSET` mode:
every entry whose selector set is a subset of the given selectors. -/
def listBySelectorsSubset (ds : List RegistrationEntry) (sels : List Selector) :
    List RegistrationEntry :=
  ds.filter (fun e => selSubset e.selectors sels)

/-- Modelled from the spec: the entry resolver implementation
(`regentryutil.FetchRegistrationEntries`) is not in the snapshot. The entries
directly attributed to a SPIFFE ID: entries parented on it, plus - when the id
has an attributed node-selector set - entries whose selectors are a subset of
that set. -/
def directEntries (ds : List RegistrationEntry) (nodeSel : String → List Selector)
    (id : String) : List RegistrationEntry :=
  listByParentId ds id ++
    (if nodeSel id = [] then [] else listBySelectorsSubset ds (nodeSel id))

/-- Pop the first id of the worklist that is still allowed (not yet visited),
dropping already-visited ids in front of it. -/
def popAllowed (allowed : List String) : List String → Option (String × List String)
  | [] => none
  | id :: rest => if id ∈ allowed then some (id, rest) else popAllowed allowed rest

/-- Modelled from the spec: the worklist expansion of the entry resolver.
`allowed` is the set of ids not yet visited; visiting an id removes it, so each
id is expanded at most once and cycles terminate. `gas` only drives structural
recursion; `allowed.length` is always sufficient because every expansion
shrinks `allowed`. -/
def crawlExp (direct : String → List RegistrationEntry) :
    Nat → List String → List String → List RegistrationEntry
  | 0, _, _ => []
  | gas + 1, allowed, ids =>
    match popAllowed allowed ids with
    | none => []
    | some (id, rest) =>
      direct id ++
        crawlExp direct gas (allowed.erase id) ((direct id).map (fun e => e.spiffeId) ++ rest)

/-- The resolver worklist loop, started with enough gas to visit every allowed
id once. -/
def crawl (direct : String → List RegistrationEntry) (allowed ids : List String) :
    List RegistrationEntry :=
  crawlExp direct allowed.length allowed ids

/-- Lexicographic character-list comparison (non-strict), the string order used
to sort resolver output. -/
def charListLe : List Char → List Char → Bool
  | [], _ => true
  | _ :: _, [] => false
  | a :: as, b :: bs =>
    if a.toNat < b.toNat then true
    else if b.toNat < a.toNat then false
    else charListLe as bs

theorem charListLe_cons_iff {a b : Char} {as bs : List Char} :
    charListLe (a :: as) (b :: bs) = true ↔
      a.toNat < b.toNat ∨ (a.toNat = b.toNat ∧ charListLe as bs = true) := by
  by_cases h1 : a.toNat < b.toNat
  · simp [charListLe, h1]
  · by_cases h2 : b.toNat < a.toNat
    · simp [charListLe, h1, h2, Nat.ne_of_lt' h2]
    · have heq : a.toNat = b.toNat :=
        Nat.le_antisymm (Nat.le_of_not_lt h2) (Nat.le_of_not_lt h1)
      simp [charListLe, h1, h2, heq]

theorem charListLe_total : ∀ x y : List Char, charListLe x y = true ∨ charListLe y x = true := by
  intro x
  induction x with
  | nil => intro y; exact Or.inl rfl
  | cons a as ih =>
    intro y
    cases y with
    | nil => exact Or.inr rfl
    | cons b bs =>
      by_cases h1 : a.toNat < b.toNat
      · exact Or.inl (by simp [charListLe, h1])
      · by_cases h2 : b.toNat < a.toNat
        · exact Or.inr (by simp [charListLe, h2])
        · rcases ih bs with h | h
          · exact Or.inl (by simp [charListLe, h1, h2, h])
          · exact Or.inr (by simp [charListLe, h1, h2, h])

theorem charListLe_trans : ∀ x y z : List Char,
    charListLe x y = true → charListLe y z = true → charListLe x z = true := by
  intro x
  induction x with
  | nil => intro y z _ _; rfl
  | cons a as ih =>
    intro y z hxy hyz
    cases y with
    | nil => simp [charListLe] at hxy
    | cons b bs =>
      cases z with
      | nil => simp [charListLe] at hyz
      | cons c cs =>
        rcases charListLe_cons_iff.mp hxy with h1 | ⟨h1, h1t⟩ <;>
          rcases charListLe_cons_iff.mp hyz with h2 | ⟨h2, h2t⟩
        · exact charListLe_cons_iff.mpr (Or.inl (Nat.lt_trans h1 h2))
        · exact charListLe_cons_iff.mpr (Or.inl (h2 ▸ h1))
        · exact charListLe_cons_iff.mpr (Or.inl (h1 ▸ h2))
        · exact charListLe_cons_iff.mpr (Or.inr ⟨h1.trans h2, ih bs cs h1t h2t⟩)

theorem charListLe_antisymm : ∀ x y : List Char,
    charListLe x y = true → charListLe y x = true → x = y := by
  intro x
  induction x with
  | nil =>
    intro y _ hyx
    cases y with
    | nil => rfl
    | cons b bs => simp [charListLe] at hyx
  | cons a as ih =>
    intro y hxy hyx
    cases y with
    | nil => simp [charListLe] at hxy
    | cons b bs =>
      rcases charListLe_cons_iff.mp hxy with h1 | ⟨h1, h1t⟩
      · rcases charListLe_cons_iff.mp hyx with h2 | ⟨h2, _⟩
        · exact absurd (Nat.lt_trans h1 h2) (Nat.lt_irrefl _)
        · exact absurd (h2 ▸ h1) (Nat.lt_irrefl _)
      · rcases charListLe_cons_iff.mp hyx with h2 | ⟨_, h2t⟩
        · exact absurd (h1 ▸ h2) (Nat.lt_irrefl _)
        · have hc : a = b := Char.eq_of_val_eq (by
            have := congrArg Char.ofNat h1
            simpa [Char.ofNat_toNat] using congrArg Char.val this)
          rw [hc, ih bs h1t h2t]

/-- Non-strict string comparison used by the resolver output order. -/
def strLeB (a b : String) : Bool := charListLe a.data b.data

theorem strLeB_total (a b : String) : strLeB a b = true ∨ strLeB b a = true :=
  charListLe_total a.data b.data

theorem strLeB_trans {a b c : String} (h1 : strLeB a b = true) (h2 : strLeB b c = true) :
    strLeB a c = true :=
  charListLe_trans a.data b.data c.data h1 h2

theorem strLeB_antisymm {a b : String} (h1 : strLeB a b = true) (h2 : strLeB b a = true) :
    a = b := by
  cases a; cases b
  exact congrArg String.mk (charListLe_antisymm _ _ h1 h2)

/-- Non-strict ordering of registration entries by `(spiffe_id, entry_id)`,
the order of the resolver output. -/
def regEntryLeB (a b : RegistrationEntry) : Bool :=
  if a.spiffeId = b.spiffeId then strLeB a.entryId b.entryId
  else strLeB a.spiffeId b.spiffeId

/-- The `(spiffe_id, entry_id)` order as a relation. -/
def regEntryLe (a b : RegistrationEntry) : Prop := regEntryLeB a b = true

instance : DecidableRel regEntryLe := fun a b => by
  unfold regEntryLe; exact inferInstance

instance : IsTotal RegistrationEntry regEntryLe := by
  constructor
  intro a b
  unfold regEntryLe regEntryLeB
  by_cases h : a.spiffeId = b.spiffeId
  · rw [if_pos h, if_pos h.symm]
    exact strLeB_total _ _
  · rw [if_neg h, if_neg (fun hh => h hh.symm)]
    exact strLeB_total _ _

instance : IsTrans RegistrationEntry regEntryLe := by
  constructor
  intro a b c hab hbc
  unfold regEntryLe regEntryLeB at hab hbc ⊢
  by_cases h1 : a.spiffeId = b.spiffeId <;> by_cases h2 : b.spiffeId = c.spiffeId
  · rw [if_pos h1] at hab
    rw [if_pos h2] at hbc
    rw [if_pos (h1.trans h2)]
    exact strLeB_trans hab hbc
  · rw [if_pos h1] at hab
    rw [if_neg h2] at hbc
    rw [if_neg (fun hh => h2 (h1.symm.trans hh)), h1]
    exact hbc
  · rw [if_neg h1] at hab
    rw [if_pos h2] at hbc
    rw [if_neg (fun hh => h1 (hh.trans h2.symm)), ← h2]
    exact hab
  · rw [if_neg h1] at hab
    rw [if_neg h2] at hbc
    by_cases h3 : a.spiffeId = c.spiffeId
    · exact absurd (strLeB_antisymm hab (h3.symm ▸ hbc)) h1
    · rw [if_neg h3]
      exact strLeB_trans hab hbc

/-- The ids the resolver may ever visit: the caller plus the `spiffe_id` of
every stored entry, without duplicates. -/
def resolverUniverse (ds : List RegistrationEntry) (caller : String) : List String :=
  (caller :: ds.map (fun e => e.spiffeId)).dedup

/-- Modelled from the spec: the entry resolver
(`regentryutil.FetchRegistrationEntries`, absent from the snapshot). Seeds the
worklist with the caller, expands each visited id into the entries directly
attributed to it, recursing on their `spiffe_id`s with a visited set, then
de-duplicates and sorts the collected entries by `(spiffe_id, entry_id)`. -/
def fetchRegistrationEntries (ds : List RegistrationEntry)
    (nodeSel : String → List Selector) (caller : String) : List RegistrationEntry :=
  List.insertionSort regEntryLe
    ((crawl (directEntries ds nodeSel) (resolverUniverse ds caller) [caller]).dedup)

/-- Ids reachable by the worklist: an id of the initial worklist that is
allowed, or the `spiffe_id` of an entry directly attributed to a reachable id,
when that `spiffe_id` is allowed. -/
inductive ReachIn (direct : String → List RegistrationEntry) (allowed : List String) :
    List String → String → Prop
  | base {ids id} : id ∈ ids → id ∈ allowed → ReachIn direct allowed ids id
  | step {ids id e} : ReachIn direct allowed ids id → e ∈ direct id →
      e.spiffeId ∈ allowed → ReachIn direct allowed ids e.spiffeId

/-- The authorization relation of the specification: an entry is authorized
for a caller iff it is parented on the caller, or its selectors are a subset
of the caller's node selectors, or it is parented on the `spiffe_id` of an
authorized entry. -/
inductive Authorized (ds : List RegistrationEntry) (nodeSels : List Selector)
    (caller : String) : RegistrationEntry → Prop
  | parent {e} : e ∈ ds → e.parentId = caller → Authorized ds nodeSels caller e
  | selectors {e} : e ∈ ds → selSubset e.selectors nodeSels = true →
      Authorized ds nodeSels caller e
  | chain {p e} : Authorized ds nodeSels caller p → e ∈ ds → e.parentId = p.spiffeId →
      Authorized ds nodeSels caller e

theorem reachIn_of_disjoint {direct : String → List RegistrationEntry}
    {allowed ids : List String} (h : ∀ i ∈ ids, i ∉ allowed) {t : String} :
    ¬ ReachIn direct allowed ids t := by
  intro hr
  induction hr with
  | base hm ha => exact h _ hm ha
  | step _ _ _ ih => exact ih

theorem popAllowed_none {allowed ids : List String}
    (h : popAllowed allowed ids = none) : ∀ i ∈ ids, i ∉ allowed := by
  induction ids with
  | nil => intro i hi; cases hi
  | cons a tl ih =>
    intro i hi
    by_cases ha : a ∈ allowed
    · simp [popAllowed, ha] at h
    · simp only [popAllowed, if_neg ha] at h
      rcases List.mem_cons.mp hi with rfl | hi2
      · exact ha
      · exact ih h i hi2

theorem reachIn_mono_ids {direct : String → List RegistrationEntry}
    {allowed ids ids' : List String} (hsub : ids ⊆ ids') {t : String}
    (h : ReachIn direct allowed ids t) : ReachIn direct allowed ids' t := by
  induction h with
  | base hm ha => exact ReachIn.base (hsub hm) ha
  | step _ he ha ih => exact ReachIn.step ih he ha

theorem reachIn_cons_not_allowed {direct : String → List RegistrationEntry}
    {allowed : List String} {i : String} {ids : List String} (hi : i ∉ allowed)
    {t : String} :
    ReachIn direct allowed (i :: ids) t ↔ ReachIn direct allowed ids t := by
  constructor
  · intro h
    induction h with
    | base hm ha =>
      rcases List.mem_cons.mp hm with rfl | hm2
      · exact absurd ha hi
      · exact ReachIn.base hm2 ha
    | step _ he ha ih => exact ReachIn.step ih he ha
  · exact reachIn_mono_ids (List.subset_cons_self _ _)

theorem popAllowed_some {allowed ids : List String} {id : String} {rest : List String}
    (h : popAllowed allowed ids = some (id, rest)) :
    id ∈ allowed ∧
      ∀ (direct : String → List RegistrationEntry) (t : String),
        (ReachIn direct allowed ids t ↔ ReachIn direct allowed (id :: rest) t) := by
  induction ids with
  | nil => simp [popAllowed] at h
  | cons a tl ih =>
    by_cases ha : a ∈ allowed
    · simp only [popAllowed, if_pos ha, Option.some.injEq, Prod.mk.injEq] at h
      obtain ⟨rfl, rfl⟩ := h
      exact ⟨ha, fun _ _ => Iff.rfl⟩
    · simp only [popAllowed, if_neg ha] at h
      obtain ⟨hid, hiff⟩ := ih h
      refine ⟨hid, fun direct t => ?_⟩
      rw [reachIn_cons_not_allowed ha]
      exact hiff direct t

theorem reachIn_expand_forward {direct : String → List RegistrationEntry}
    {allowed : List String} {id : String} {rest : List String} (hid : id ∈ allowed)
    {t : String} (h : ReachIn direct allowed (id :: rest) t) :
    t = id ∨
      ReachIn direct (allowed.erase id)
        ((direct id).map (fun e => e.spiffeId) ++ rest) t := by
  induction h with
  | base hm ha =>
    rename_i id0
    by_cases he : id0 = id
    · exact Or.inl he
    · right
      rcases List.mem_cons.mp hm with rfl | hm2
      · exact absurd rfl he
      · exact ReachIn.base (List.mem_append_right _ hm2) ((List.mem_erase_of_ne he).mpr ha)
  | step hp he ha ih =>
    rename_i p e
    by_cases ht : e.spiffeId = id
    · exact Or.inl ht
    · right
      rcases ih with rfl | ih
      · exact ReachIn.base
          (List.mem_append_left _ (List.mem_map.mpr ⟨e, he, rfl⟩))
          ((List.mem_erase_of_ne ht).mpr ha)
      · exact ReachIn.step ih he ((List.mem_erase_of_ne ht).mpr ha)

theorem reachIn_expand_backward {direct : String → List RegistrationEntry}
    {allowed : List String} {id : String} {rest : List String} (hid : id ∈ allowed)
    {t : String}
    (h : ReachIn direct (allowed.erase id)
          ((direct id).map (fun e => e.spiffeId) ++ rest) t) :
    ReachIn direct allowed (id :: rest) t := by
  induction h with
  | base hm ha =>
    rcases List.mem_append.mp hm with hm | hm
    · obtain ⟨e, he, rfl⟩ := List.mem_map.mp hm
      exact ReachIn.step (ReachIn.base (List.mem_cons_self _ _) hid) he
        (List.erase_subset _ _ ha)
    · exact ReachIn.base (List.mem_cons_of_mem _ hm) (List.erase_subset _ _ ha)
  | step _ he ha ih => exact ReachIn.step ih he (List.erase_subset _ _ ha)

theorem mem_crawlExp_iff {direct : String → List RegistrationEntry}
    {x : RegistrationEntry} :
    ∀ (gas : Nat) (allowed ids : List String), allowed.length ≤ gas →
      (x ∈ crawlExp direct gas allowed ids ↔
        ∃ t, ReachIn direct allowed ids t ∧ x ∈ direct t) := by
  intro gas
  induction gas with
  | zero =>
    intro allowed ids hlen
    have : allowed = [] := List.eq_nil_of_length_eq_zero (Nat.le_zero.mp hlen)
    subst this
    simp only [crawlExp, List.not_mem_nil, false_iff, not_exists, not_and]
    intro t hr
    exact absurd hr (reachIn_of_disjoint (by intro i _ hi; cases hi))
  | succ gas ih =>
    intro allowed ids hlen
    rcases hpop : popAllowed allowed ids with _ | ⟨id, rest⟩
    · simp only [crawlExp, hpop, List.not_mem_nil, false_iff, not_exists, not_and]
      intro t hr
      exact absurd hr (reachIn_of_disjoint (popAllowed_none hpop))
    · obtain ⟨hid, hiff⟩ := popAllowed_some hpop
      have hlen' : (allowed.erase id).length ≤ gas := by
        rw [List.length_erase_of_mem hid]
        omega
      have IH := ih (allowed.erase id) ((direct id).map (fun e => e.spiffeId) ++ rest) hlen'
      simp only [crawlExp, hpop, List.mem_append]
      constructor
      · rintro (hx | hx)
        · exact ⟨id, (hiff direct id).mpr (ReachIn.base (List.mem_cons_self _ _) hid), hx⟩
        · obtain ⟨t, hr, hx⟩ := IH.mp hx
          exact ⟨t, (hiff direct t).mpr (reachIn_expand_backward hid hr), hx⟩
      · rintro ⟨t, hr, hx⟩
        rcases reachIn_expand_forward hid ((hiff direct t).mp hr) with rfl | hr2
        · exact Or.inl hx
        · exact Or.inr (IH.mpr ⟨t, hr2, hx⟩)

theorem mem_crawl_iff {direct : String → List RegistrationEntry}
    {x : RegistrationEntry} {allowed ids : List String} :
    x ∈ crawl direct allowed ids ↔
      ∃ t, ReachIn direct allowed ids t ∧ x ∈ direct t :=
  mem_crawlExp_iff allowed.length allowed ids le_rfl

theorem mem_ds_of_mem_directEntries {ds : List RegistrationEntry}
    {nodeSel : String → List Selector} {id : String} {e : RegistrationEntry}
    (h : e ∈ directEntries ds nodeSel id) : e ∈ ds := by
  rcases List.mem_append.mp h with h | h
  · exact (List.mem_filter.mp h).1
  · split at h
    · cases h
    · exact (List.mem_filter.mp h).1

theorem mem_directEntries_caller {ds : List RegistrationEntry}
    {nodeSel : String → List Selector} {caller : String} {x : RegistrationEntry}
    (hx : x ∈ directEntries ds nodeSel caller) :
    x ∈ ds ∧ (x.parentId = caller ∨ selSubset x.selectors (nodeSel caller) = true) := by
  rcases List.mem_append.mp hx with h | h
  · obtain ⟨hds, hp⟩ := List.mem_filter.mp h
    exact ⟨hds, Or.inl (by simpa using hp)⟩
  · split at h
    · cases h
    · obtain ⟨hds, hp⟩ := List.mem_filter.mp h
      exact ⟨hds, Or.inr (by simpa using hp)⟩

theorem authorized_of_reach {ds : List RegistrationEntry}
    {nodeSel : String → List Selector} {caller : String}
    (hsel : ∀ id, id ≠ caller → nodeSel id = []) {t : String}
    (hr : ReachIn (directEntries ds nodeSel) (resolverUniverse ds caller) [caller] t) :
    ∀ x ∈ directEntries ds nodeSel t, Authorized ds (nodeSel caller) caller x := by
  induction hr with
  | base hm hall =>
    rename_i id0
    have : id0 = caller := by simpa using hm
    subst this
    intro x hx
    obtain ⟨hds, hp | hp⟩ := mem_directEntries_caller hx
    · exact Authorized.parent hds hp
    · exact Authorized.selectors hds hp
  | step hp he hall ih =>
    rename_i p e
    intro x hx
    by_cases hc : e.spiffeId = caller
    · rw [hc] at hx
      obtain ⟨hds, hpar | hsub⟩ := mem_directEntries_caller hx
      · exact Authorized.parent hds hpar
      · exact Authorized.selectors hds hsub
    · have hnone : nodeSel e.spiffeId = [] := hsel _ hc
      have hx' : x ∈ listByParentId ds e.spiffeId := by
        simpa [directEntries, hnone] using hx
      obtain ⟨hds, hpar⟩ := List.mem_filter.mp hx'
      exact Authorized.chain (ih e he) hds (by simpa using hpar)

theorem caller_mem_resolverUniverse (ds : List RegistrationEntry) (caller : String) :
    caller ∈ resolverUniverse ds caller := by
  simp [resolverUniverse, List.mem_dedup]

theorem spiffeId_mem_resolverUniverse {ds : List RegistrationEntry} (caller : String)
    {e : RegistrationEntry} (he : e ∈ ds) :
    e.spiffeId ∈ resolverUniverse ds caller := by
  simp only [resolverUniverse, List.mem_dedup, List.mem_cons, List.mem_map]
  exact Or.inr ⟨e, he, rfl⟩

theorem mem_byParent_directEntries {ds : List RegistrationEntry}
    {nodeSel : String → List Selector} {id : String} {x : RegistrationEntry}
    (hds : x ∈ ds) (hp : x.parentId = id) : x ∈ directEntries ds nodeSel id :=
  List.mem_append_left _ (List.mem_filter.mpr ⟨hds, by simpa using hp⟩)

theorem reach_of_authorized {ds : List RegistrationEntry}
    {nodeSel : String → List Selector} {caller : String}
    (hne : nodeSel caller ≠ []) {x : RegistrationEntry}
    (ha : Authorized ds (nodeSel caller) caller x) :
    ∃ t, ReachIn (directEntries ds nodeSel) (resolverUniverse ds caller) [caller] t ∧
      x ∈ directEntries ds nodeSel t := by
  induction ha with
  | parent hds hp =>
    exact ⟨caller,
      ReachIn.base (List.mem_cons_self _ _) (caller_mem_resolverUniverse ds caller),
      mem_byParent_directEntries hds hp⟩
  | selectors hds hsub =>
    refine ⟨caller,
      ReachIn.base (List.mem_cons_self _ _) (caller_mem_resolverUniverse ds caller), ?_⟩
    refine List.mem_append_right _ ?_
    rw [if_neg hne]
    exact List.mem_filter.mpr ⟨hds, by simpa using hsub⟩
  | chain hAp hds hpar ih =>
    rename_i p e
    obtain ⟨t, hr, hp⟩ := ih
    refine ⟨p.spiffeId, ReachIn.step hr hp ?_, mem_byParent_directEntries hds hpar⟩
    exact spiffeId_mem_resolverUniverse caller (mem_ds_of_mem_directEntries hp)

/-- Claim C1: for a caller with an attributed node-selector set (and only the
caller carrying one), the resolver output contains an entry E iff E is parented
on the caller, or E's selectors are a subset of the caller's node selectors, or
E is reachable from such a seed through a chain of parent edges; the worklist
reaches this fixed point visiting each id at most once even on cyclic parent
graphs, since the visited set shrinks `resolverUniverse` at every expansion. -/
theorem fetchRegistrationEntries_mem_iff (ds : List RegistrationEntry)
    (nodeSel : String → List Selector) (caller : String)
    (hsel : ∀ id, id ≠ caller → nodeSel id = []) (hne : nodeSel caller ≠ [])
    (e : RegistrationEntry) :
    e ∈ fetchRegistrationEntries ds nodeSel caller ↔
      Authorized ds (nodeSel caller) caller e := by
  unfold fetchRegistrationEntries
  rw [(List.perm_insertionSort regEntryLe _).mem_iff, List.mem_dedup, mem_crawl_iff]
  constructor
  · rintro ⟨t, hr, hx⟩
    exact authorized_of_reach hsel hr e hx
  · intro ha
    exact reach_of_authorized hne ha

def wDs1 : List RegistrationEntry :=
  [⟨"1", "c1", "a", [("t", "v")], 1, []⟩,
   ⟨"2", "a", "b", [("t", "v")], 1, []⟩,
   ⟨"3", "b", "a", [("t", "v")], 1, []⟩,
   ⟨"4", "z", "w", [("s", "t")], 1, []⟩]

def wSel1 : String → List Selector := fun id => if id = "c1" then [("s", "t")] else []

/-- Witness for C1 at a concrete datastore whose parent edges form a cycle
(`a → b → a`). -/
theorem fetchRegistrationEntries_mem_iff_witness :
    (⟨"3", "b", "a", [("t", "v")], 1, []⟩ : RegistrationEntry) ∈
        fetchRegistrationEntries wDs1 wSel1 "c1" ↔
      Authorized wDs1 (wSel1 "c1") "c1" ⟨"3", "b", "a", [("t", "v")], 1, []⟩ :=
  fetchRegistrationEntries_mem_iff wDs1 wSel1 "c1"
    (by intro id h; simp only [wSel1, if_neg h]) (by simp [wSel1]) _

/-- Claim C2: the resolver output - the registration-entry list returned in the
X509SVIDUpdate of Attest and FetchX509SVID - is sorted by
`(spiffe_id, entry_id)` and lists every entry it contains exactly once, even
when an entry is reachable both through a parent edge and through selector
matching. -/
theorem fetchRegistrationEntries_sorted_count (ds : List RegistrationEntry)
    (nodeSel : String → List Selector) (caller : String) :
    List.Sorted regEntryLe (fetchRegistrationEntries ds nodeSel caller) ∧
      ∀ e ∈ fetchRegistrationEntries ds nodeSel caller,
        (fetchRegistrationEntries ds nodeSel caller).count e = 1 := by
  constructor
  · exact List.sorted_insertionSort regEntryLe _
  · intro e he
    have hnd : (fetchRegistrationEntries ds nodeSel caller).Nodup := by
      unfold fetchRegistrationEntries
      exact ((List.perm_insertionSort regEntryLe _).nodup_iff).mpr (List.nodup_dedup _)
    exact List.count_eq_one_of_mem hnd he

def wDs2 : List RegistrationEntry :=
  [⟨"1", "c2", "a", [("t", "v")], 1, []⟩,
   ⟨"2", "a", "b", [("u", "w")], 1, []⟩,
   ⟨"3", "c2", "b", [("t", "v")], 1, []⟩]

def wSel2 : String → List Selector := fun _ => []

/-- Witness for C2 at a concrete datastore. -/
theorem fetchRegistrationEntries_sorted_count_witness :
    List.Sorted regEntryLe (fetchRegistrationEntries wDs2 wSel2 "c2") ∧
      (fetchRegistrationEntries wDs2 wSel2 "c2").count
        ⟨"2", "a", "b", [("u", "w")], 1, []⟩ = 1 :=
  ⟨(fetchRegistrationEntries_sorted_count wDs2 wSel2 "c2").1,
   (fetchRegistrationEntries_sorted_count wDs2 wSel2 "c2").2
     ⟨"2", "a", "b", [("u", "w")], 1, []⟩ (by decide)⟩

/-- A message emitted by a node attestor on its stream: either a challenge for
the agent or a final result. -/
inductive AttestorMsg where
  | challenge (data : String)
  | result (valid : Bool) (baseSpiffeId : String) (sels : List Selector)
deriving DecidableEq, Repr

/-- A response sent by the node API handler to the agent during an Attest
stream: an intermediate challenge or the final SVID update (abstracted as an
opaque payload). -/
inductive AttestResponseMsg where
  | challenge (data : String)
  | svidUpdate (payload : String)
deriving DecidableEq, Repr

/-- The transcript of an Attest stream produced by the handler: the responses
sent to the agent and the agent answers forwarded back to the attestor. -/
structure AttestTranscript where
  sent : List AttestResponseMsg
  forwarded : List String
deriving DecidableEq, Repr

/-- Modelled from the spec: the challenge loop of the node API Attest handler
(the handler implementation is not in the snapshot). Each attestor challenge
is relayed to the agent, the agent's next answer is forwarded back, and a
valid result produces the single SVID-update response. A closed stream, an
exhausted agent or an invalid result abort the stream (`none`). -/
def attestChallengeLoop (update : String) :
    List AttestorMsg → List String → Option AttestTranscript
  | AttestorMsg.result true _ _ :: _, _ =>
    some ⟨[AttestResponseMsg.svidUpdate update], []⟩
  | AttestorMsg.result false _ _ :: _, _ => none
  | AttestorMsg.challenge c :: script, a :: answers =>
    (attestChallengeLoop update script answers).map
      (fun t => ⟨AttestResponseMsg.challenge c :: t.sent, a :: t.forwarded⟩)
  | AttestorMsg.challenge _ :: _, [] => none
  | [], _ => none

/-- Claim C3: when the attestor is scripted to emit `n` challenges and then a
valid result, and the agent answers every challenge, the handler sends exactly
one challenge response per attestor challenge (in order), forwards every agent
answer to the attestor, and ends with exactly one SVID-update response. -/
theorem attestChallengeLoop_run (update : String) (cs : List String)
    (answers : List String) (base : String) (sels : List Selector)
    (hlen : answers.length = cs.length) :
    attestChallengeLoop update
        (cs.map AttestorMsg.challenge ++ [AttestorMsg.result true base sels]) answers =
      some ⟨cs.map AttestResponseMsg.challenge ++ [AttestResponseMsg.svidUpdate update],
        answers⟩ := by
  induction cs generalizing answers with
  | nil =>
    have : answers = [] := List.eq_nil_of_length_eq_zero hlen
    subst this
    rfl
  | cons c ctl ih =>
    cases answers with
    | nil => simp at hlen
    | cons a atl =>
      simp only [List.length_cons, Nat.succ.injEq] at hlen
      simp only [List.map_cons, List.cons_append, attestChallengeLoop, List.append_eq,
        ih atl hlen]
      rfl

/-- Witness for C3: the scripted run of the test (`1+1`, `5+7` answered by `2`,
`12`) sends two challenge responses and then the SVID update. -/
theorem attestChallengeLoop_run_witness :
    attestChallengeLoop "svid-update"
        ([AttestorMsg.challenge "1+1", AttestorMsg.challenge "5+7",
          AttestorMsg.result true "spiffe://example.org/spire/agent/join_token/token"
            [("foo", "bar")]]) ["2", "12"] =
      some ⟨[AttestResponseMsg.challenge "1+1", AttestResponseMsg.challenge "5+7",
        AttestResponseMsg.svidUpdate "svid-update"], ["2", "12"]⟩ :=
  attestChallengeLoop_run "svid-update" ["1+1", "5+7"] ["2", "12"]
    "spiffe://example.org/spire/agent/join_token/token" [("foo", "bar")] (by decide)

/-- The loaded signing certificate of the in-memory server CA, reduced to the
field the signing path reads: its expiry (seconds since the epoch). -/
structure SigningCert where
  notAfter : Int
deriving DecidableEq, Repr

/-- The in-memory server CA state: the optionally loaded signing certificate
and the configured default TTL (seconds). -/
structure MemoryCA where
  cert : Option SigningCert
  defaultTTL : Int
deriving DecidableEq, Repr

/-- Validity bounds of a certificate issued by the server CA. -/
structure IssuedCert where
  notBefore : Int
  notAfter : Int
deriving DecidableEq, Repr

/-- Failure of the signing path. -/
inductive SignCsrError where
  | notInitialized (msg : String)
deriving DecidableEq, Repr

/-- Modelled from the spec: `SignCsr` of the in-memory server CA plugin (its
implementation is not in the snapshot, only its tests). With no certificate
loaded it fails; otherwise it backdates `NotBefore` ten seconds and computes
the expiry from the requested TTL (the configured default when the TTL is
zero), clamping it to the signing certificate's own expiry. -/
def signCsr (m : MemoryCA) (now ttl : Int) : Except SignCsrError IssuedCert :=
  match m.cert with
  | none => Except.error (SignCsrError.notInitialized "invalid state: no certificate loaded")
  | some c =>
    let effTTL := if ttl = 0 then m.defaultTTL else ttl
    let expiry := now + effTTL
    let clamped := if c.notAfter < expiry then c.notAfter else expiry
    Except.ok { notBefore := now - 10, notAfter := clamped }

/-- Claim C4: with a signing certificate loaded and a non-zero requested TTL
the issued certificate's `NotAfter` is `min(now + ttl, signing_cert.NotAfter)`
- in particular it equals the signing certificate's `NotAfter` whenever
`now + ttl` exceeds it - and signing fails when no certificate is loaded. -/
theorem signCsr_notAfter (m : MemoryCA) (now ttl : Int) :
    (∀ c : SigningCert, m.cert = some c → ttl ≠ 0 →
      signCsr m now ttl =
          Except.ok ⟨now - 10, min (now + ttl) c.notAfter⟩ ∧
        (c.notAfter < now + ttl →
          signCsr m now ttl = Except.ok ⟨now - 10, c.notAfter⟩)) ∧
      (m.cert = none →
        signCsr m now ttl =
          Except.error (SignCsrError.notInitialized "invalid state: no certificate loaded")) := by
  constructor
  · intro c hc ht
    have hmin : (if c.notAfter < now + ttl then c.notAfter else now + ttl) =
        min (now + ttl) c.notAfter := by
      rcases lt_or_le c.notAfter (now + ttl) with h | h
      · rw [if_pos h, min_eq_right h.le]
      · rw [if_neg (not_lt.mpr h), min_eq_left h]
    constructor
    · simp only [signCsr, hc, if_neg ht, hmin]
    · intro hlt
      simp only [signCsr, hc, if_neg ht, if_pos hlt]
  · intro hc
    simp only [signCsr, hc]

/-- Witness for C4: a certificate expiring before `now + ttl` caps the issued
expiry, and an unloaded CA fails. -/
theorem signCsr_notAfter_witness :
    (signCsr ⟨some ⟨100⟩, 50⟩ 90 60 = Except.ok ⟨80, min 150 100⟩ ∧
        (signCsr ⟨some ⟨100⟩, 50⟩ 90 60 = Except.ok ⟨80, 100⟩)) ∧
      signCsr ⟨none, 50⟩ 90 60 =
        Except.error (SignCsrError.notInitialized "invalid state: no certificate loaded") := by
  have h := signCsr_notAfter ⟨some ⟨100⟩, 50⟩ 90 60
  have h1 := h.1 ⟨100⟩ rfl (by decide)
  exact ⟨⟨h1.1, h1.2 (by decide)⟩,
    (signCsr_notAfter ⟨none, 50⟩ 90 60).2 rfl⟩

theorem mem_fetch_of_parent {ds : List RegistrationEntry}
    {nodeSel : String → List Selector} {caller : String} {e : RegistrationEntry}
    (hds : e ∈ ds) (hp : e.parentId = caller) :
    e ∈ fetchRegistrationEntries ds nodeSel caller := by
  unfold fetchRegistrationEntries
  rw [(List.perm_insertionSort regEntryLe _).mem_iff, List.mem_dedup, mem_crawl_iff]
  exact ⟨caller,
    ReachIn.base (List.mem_cons_self _ _) (caller_mem_resolverUniverse ds caller),
    mem_byParent_directEntries hds hp⟩

/-- The JWT-SVID signing request carried by a `FetchJWTSVIDRequest`. -/
structure JSR where
  spiffeId : String
  audience : List String
deriving DecidableEq, Repr

/-- Outcome of the FetchJWTSVID handler. -/
inductive FetchJWTResult where
  | invalidArgument (msg : String)
  | permissionDenied (msg : String)
  | ok (token : String) (expiresAt : Int)
deriving DecidableEq, Repr

/-- Modelled from the spec: the server CA's JWT-SVID signing, abstracted to a
compact serialization that is never empty. -/
def signJWTSVID (id : String) : String := "jwt." ++ id

/-- Modelled from the spec: the node API FetchJWTSVID handler (not in the
snapshot, only its test). Validates the request fields, authorizes the
requested SPIFFE ID against the caller's entry closure, and signs a JWT-SVID
whose expiry is `now + ttl` capped by the signing certificate's expiry. -/
def fetchJWTSVID (ds : List RegistrationEntry) (nodeSel : String → List Selector)
    (caller : String) (req : Option JSR) (now jwtTTL certNotAfter : Int) :
    FetchJWTResult :=
  match req with
  | none => FetchJWTResult.invalidArgument "request missing JSR"
  | some jsr =>
    if jsr.spiffeId = "" then FetchJWTResult.invalidArgument "request missing SPIFFE ID"
    else if jsr.audience = [] then FetchJWTResult.invalidArgument "request missing audience"
    else if (fetchRegistrationEntries ds nodeSel caller).any
        (fun e => e.spiffeId = jsr.spiffeId) then
      FetchJWTResult.ok (signJWTSVID jsr.spiffeId) (min (now + jwtTTL) certNotAfter)
    else
      FetchJWTResult.permissionDenied
        ("caller \"" ++ caller ++ "\" is not authorized for \"" ++ jsr.spiffeId ++ "\"")

/-- Claim C5: FetchJWTSVID rejects a request missing the JSR, the SPIFFE ID or
the audience with an invalid-argument error; when the requested SPIFFE ID is
not in the caller's entry closure it is rejected with permission denied and
exactly the message `caller "<id>" is not authorized for "<target>"`; and when
a registration entry parented on the caller names the requested SPIFFE ID it
returns a non-empty signed JWT-SVID with a non-zero expiry. -/
theorem fetchJWTSVID_spec (ds : List RegistrationEntry)
    (nodeSel : String → List Selector) (caller : String)
    (now jwtTTL certNotAfter : Int) :
    (fetchJWTSVID ds nodeSel caller none now jwtTTL certNotAfter =
        FetchJWTResult.invalidArgument "request missing JSR") ∧
      (∀ jsr : JSR, jsr.spiffeId = "" →
        fetchJWTSVID ds nodeSel caller (some jsr) now jwtTTL certNotAfter =
          FetchJWTResult.invalidArgument "request missing SPIFFE ID") ∧
      (∀ jsr : JSR, jsr.spiffeId ≠ "" → jsr.audience = [] →
        fetchJWTSVID ds nodeSel caller (some jsr) now jwtTTL certNotAfter =
          FetchJWTResult.invalidArgument "request missing audience") ∧
      (∀ jsr : JSR, jsr.spiffeId ≠ "" → jsr.audience ≠ [] →
        (∀ e ∈ fetchRegistrationEntries ds nodeSel caller, e.spiffeId ≠ jsr.spiffeId) →
        fetchJWTSVID ds nodeSel caller (some jsr) now jwtTTL certNotAfter =
          FetchJWTResult.permissionDenied
            ("caller \"" ++ caller ++ "\" is not authorized for \"" ++
              jsr.spiffeId ++ "\"")) ∧
      (∀ (jsr : JSR) (e : RegistrationEntry), e ∈ ds → e.parentId = caller →
        e.spiffeId = jsr.spiffeId → jsr.spiffeId ≠ "" → jsr.audience ≠ [] →
        0 < now → 0 < jwtTTL → 0 < certNotAfter →
        ∃ token expiresAt,
          fetchJWTSVID ds nodeSel caller (some jsr) now jwtTTL certNotAfter =
              FetchJWTResult.ok token expiresAt ∧
            token ≠ "" ∧ expiresAt ≠ 0) := by
  refine ⟨rfl, ?_, ?_, ?_, ?_⟩
  · intro jsr h
    simp only [fetchJWTSVID, if_pos h]
  · intro jsr h1 h2
    simp only [fetchJWTSVID, if_neg h1, if_pos h2]
  · intro jsr h1 h2 hnone
    have hany : (fetchRegistrationEntries ds nodeSel caller).any
        (fun e => e.spiffeId = jsr.spiffeId) = false := by
      rw [List.any_eq_false]
      intro e he
      simpa using hnone e he
    simp only [fetchJWTSVID, if_neg h1, if_neg h2, hany, Bool.false_eq_true, if_false]
  · intro jsr e hds hp hid h1 h2 hnow httl hna
    have hmem : e ∈ fetchRegistrationEntries ds nodeSel caller :=
      mem_fetch_of_parent hds hp
    have hany : (fetchRegistrationEntries ds nodeSel caller).any
        (fun e => e.spiffeId = jsr.spiffeId) = true := by
      rw [List.any_eq_true]
      exact ⟨e, hmem, by simpa using hid⟩
    refine ⟨signJWTSVID jsr.spiffeId, min (now + jwtTTL) certNotAfter, ?_, ?_, ?_⟩
    · simp only [fetchJWTSVID, if_neg h1, if_neg h2, hany, if_true]
    · intro hcon
      have hdata := congrArg String.data hcon
      rw [signJWTSVID, String.data_append] at hdata
      exact absurd (List.append_eq_nil.mp hdata).1 (by decide)
    · have : (0 : Int) < min (now + jwtTTL) certNotAfter := by
        rcases min_choice (now + jwtTTL) certNotAfter with h | h <;> rw [h] <;> omega
      omega

def wDs5 : List RegistrationEntry :=
  [⟨"", "spiffe://example.org/spire/agent/join_token/token", "spiffe://example.org/blog",
    [], 1, ["spiffe://otherdomain.test"]⟩]

def wSel5 : String → List Selector := fun _ => []

/-- Witness for C5: the scenarios of the handler test - missing JSR, missing
SPIFFE ID, missing audience, the unauthorized `/db` request and the authorized
`/blog` request. -/
theorem fetchJWTSVID_spec_witness :
    (fetchJWTSVID wDs5 wSel5 "spiffe://example.org/spire/agent/join_token/token"
        none 100 5 1000 = FetchJWTResult.invalidArgument "request missing JSR") ∧
      (fetchJWTSVID wDs5 wSel5 "spiffe://example.org/spire/agent/join_token/token"
        (some ⟨"", []⟩) 100 5 1000 =
          FetchJWTResult.invalidArgument "request missing SPIFFE ID") ∧
      (fetchJWTSVID wDs5 wSel5 "spiffe://example.org/spire/agent/join_token/token"
        (some ⟨"spiffe://example.org/blog", []⟩) 100 5 1000 =
          FetchJWTResult.invalidArgument "request missing audience") ∧
      (fetchJWTSVID wDs5 wSel5 "spiffe://example.org/spire/agent/join_token/token"
        (some ⟨"spiffe://example.org/db", ["AUDIENCE"]⟩) 100 5 1000 =
          FetchJWTResult.permissionDenied
            ("caller \"" ++ "spiffe://example.org/spire/agent/join_token/token" ++
              "\" is not authorized for \"" ++ "spiffe://example.org/db" ++ "\"")) ∧
      (∃ token expiresAt,
        fetchJWTSVID wDs5 wSel5 "spiffe://example.org/spire/agent/join_token/token"
            (some ⟨"spiffe://example.org/blog", ["AUDIENCE"]⟩) 100 5 1000 =
            FetchJWTResult.ok token expiresAt ∧ token ≠ "" ∧ expiresAt ≠ 0) := by
  have h := fetchJWTSVID_spec wDs5 wSel5
    "spiffe://example.org/spire/agent/join_token/token" 100 5 1000
  exact ⟨h.1,
    h.2.1 ⟨"", []⟩ rfl,
    h.2.2.1 ⟨"spiffe://example.org/blog", []⟩ (by decide) rfl,
    h.2.2.2.1 ⟨"spiffe://example.org/db", ["AUDIENCE"]⟩ (by decide) (by decide) (by decide),
    h.2.2.2.2 ⟨"spiffe://example.org/blog", ["AUDIENCE"]⟩
      ⟨"", "spiffe://example.org/spire/agent/join_token/token", "spiffe://example.org/blog",
        [], 1, ["spiffe://otherdomain.test"]⟩
      (by decide) rfl rfl (by decide) (by decide) (by decide) (by decide) (by decide)⟩

/-- The call context seen by the node API authorizer: the verified peer leaf
certificate from the transport, if any, and the certificate the authorizer
attached for downstream handlers (certificates abstracted as opaque values). -/
structure NodeCallContext where
  peerCert : Option Nat
  attachedCert : Option Nat
deriving DecidableEq, Repr

/-- Failure of `AuthorizeCall`. -/
inductive AuthCallError where
  | permissionDenied (msg : String)
  | missingClientSVID (msg : String)
deriving DecidableEq, Repr

/-- Modelled from the spec: `AuthorizeCall` of the node API handler (not in
the snapshot, only its test). `Attest` passes through with the context
untouched; the fetch methods require a verified peer certificate and attach it
to the context; any other method is refused as not implemented. -/
def authorizeCall (ctx : NodeCallContext) (fullMethod : String) :
    Except AuthCallError NodeCallContext :=
  if fullMethod = "/spire.api.node.Node/Attest" then Except.ok ctx
  else if fullMethod = "/spire.api.node.Node/FetchX509SVID" ∨
      fullMethod = "/spire.api.node.Node/FetchJWTSVID" then
    match ctx.peerCert with
    | none => Except.error (AuthCallError.missingClientSVID
        "client SVID is required for this request")
    | some cert => Except.ok { ctx with attachedCert := some cert }
  else
    Except.error (AuthCallError.permissionDenied
      ("authorization not implemented for method \"" ++ fullMethod ++ "\""))

/-- Claim C6: `AuthorizeCall` passes the context through unchanged for Attest
regardless of peer credentials, fails for the fetch methods without a verified
peer certificate and otherwise attaches the peer certificate to the context,
and refuses every other method with a permission-denied
authorization-not-implemented error. -/
theorem authorizeCall_spec (ctx : NodeCallContext) :
    (authorizeCall ctx "/spire.api.node.Node/Attest" = Except.ok ctx) ∧
      (∀ m, (m = "/spire.api.node.Node/FetchX509SVID" ∨
          m = "/spire.api.node.Node/FetchJWTSVID") →
        (ctx.peerCert = none →
          authorizeCall ctx m = Except.error (AuthCallError.missingClientSVID
            "client SVID is required for this request")) ∧
        (∀ cert, ctx.peerCert = some cert →
          authorizeCall ctx m = Except.ok ⟨ctx.peerCert, some cert⟩)) ∧
      (∀ m, m ≠ "/spire.api.node.Node/Attest" →
        m ≠ "/spire.api.node.Node/FetchX509SVID" →
        m ≠ "/spire.api.node.Node/FetchJWTSVID" →
        authorizeCall ctx m = Except.error (AuthCallError.permissionDenied
          ("authorization not implemented for method \"" ++ m ++ "\""))) := by
  refine ⟨?_, ?_, ?_⟩
  · simp [authorizeCall]
  · intro m hm
    have hne : m ≠ "/spire.api.node.Node/Attest" := by
      rcases hm with rfl | rfl <;> decide
    constructor
    · intro hnone
      simp only [authorizeCall, if_neg hne, if_pos hm, hnone]
    · intro cert hsome
      simp only [authorizeCall, if_neg hne, if_pos hm, hsome]
  · intro m h1 h2 h3
    simp only [authorizeCall, if_neg h1, if_neg (by tauto : ¬(m =
      "/spire.api.node.Node/FetchX509SVID" ∨ m = "/spire.api.node.Node/FetchJWTSVID"))]

/-- Witness for C6: the methods probed by the handler test, with and without a
verified peer certificate. -/
theorem authorizeCall_spec_witness :
    (authorizeCall ⟨some 7, none⟩ "/spire.api.node.Node/Attest" =
        Except.ok ⟨some 7, none⟩) ∧
      (authorizeCall ⟨none, none⟩ "/spire.api.node.Node/FetchX509SVID" =
        Except.error (AuthCallError.missingClientSVID
          "client SVID is required for this request")) ∧
      (authorizeCall ⟨some 7, none⟩ "/spire.api.node.Node/FetchJWTSVID" =
        Except.ok ⟨some 7, some 7⟩) ∧
      (authorizeCall ⟨some 7, none⟩ "/spire.api.node.Node/Foo" =
        Except.error (AuthCallError.permissionDenied
          ("authorization not implemented for method \"" ++
            "/spire.api.node.Node/Foo" ++ "\""))) :=
  ⟨(authorizeCall_spec ⟨some 7, none⟩).1,
   ((authorizeCall_spec ⟨none, none⟩).2.1 "/spire.api.node.Node/FetchX509SVID"
     (Or.inl rfl)).1 rfl,
   ((authorizeCall_spec ⟨some 7, none⟩).2.1 "/spire.api.node.Node/FetchJWTSVID"
     (Or.inr rfl)).2 7 rfl,
   (authorizeCall_spec ⟨some 7, none⟩).2.2 "/spire.api.node.Node/Foo"
     (by decide) (by decide) (by decide)⟩

/-- A stored trust bundle: the trust-domain id and its root CA certificates
(DER blobs abstracted as strings). -/
structure TrustBundle where
  trustDomainId : String
  rootCas : List String
deriving DecidableEq, Repr

/-- Whether a SPIFFE trust-domain id string carries a non-empty path (a slash
after the `spiffe://` scheme and host). -/
def tdHasPath (id : String) : Bool := (id.data.drop 9).contains '/'

/-- The exact validation message for a trust-domain id with a non-empty path. -/
def tdPathErrMsg (id : String) : String :=
  "\"" ++ id ++ "\" is not a valid trust domain SPIFFE ID: path is not empty"

/-- Modelled from the spec: validation shared by every federated-bundle
operation of the registration API handler (not in the snapshot, only its
tests). Rejects ids with a non-empty path and ids equal to the server's own
trust domain. -/
def validateFederatedBundleId (serverTD id : String) : Option String :=
  if tdHasPath id then some (tdPathErrMsg id)
  else if id = serverTD then some "federated bundle id cannot match server trust domain"
  else none

/-- Modelled from the spec: `CreateFederatedBundle` of the registration API
handler. Returns the result together with the resulting bundle store. -/
def createFederatedBundle (serverTD : String) (bundles : List TrustBundle)
    (b : TrustBundle) : Except String Unit × List TrustBundle :=
  match validateFederatedBundleId serverTD b.trustDomainId with
  | some msg => (Except.error msg, bundles)
  | none =>
    if bundles.any (fun x => x.trustDomainId = b.trustDomainId) then
      (Except.error "bundle already exists", bundles)
    else (Except.ok (), bundles ++ [b])

/-- Modelled from the spec: `FetchFederatedBundle` of the registration API
handler. -/
def fetchFederatedBundle (serverTD : String) (bundles : List TrustBundle)
    (id : String) : Except String TrustBundle × List TrustBundle :=
  match validateFederatedBundleId serverTD id with
  | some msg => (Except.error msg, bundles)
  | none =>
    match bundles.find? (fun x => x.trustDomainId = id) with
    | none => (Except.error "bundle not found", bundles)
    | some b => (Except.ok b, bundles)

/-- Modelled from the spec: `UpdateFederatedBundle` of the registration API
handler. -/
def updateFederatedBundle (serverTD : String) (bundles : List TrustBundle)
    (b : TrustBundle) : Except String Unit × List TrustBundle :=
  match validateFederatedBundleId serverTD b.trustDomainId with
  | some msg => (Except.error msg, bundles)
  | none =>
    if bundles.any (fun x => x.trustDomainId = b.trustDomainId) then
      (Except.ok (), bundles.map (fun x => if x.trustDomainId = b.trustDomainId then b else x))
    else (Except.error "no such bundle", bundles)

/-- Modelled from the spec: `DeleteFederatedBundle` of the registration API
handler. -/
def deleteFederatedBundle (serverTD : String) (bundles : List TrustBundle)
    (id : String) : Except String Unit × List TrustBundle :=
  match validateFederatedBundleId serverTD id with
  | some msg => (Except.error msg, bundles)
  | none =>
    if bundles.any (fun x => x.trustDomainId = id) then
      (Except.ok (), bundles.filter (fun x => !(x.trustDomainId = id : Bool)))
    else (Except.error "no such bundle", bundles)

/-- Modelled from the spec: `ListFederatedBundles` of the registration API
handler streams every stored bundle except the server trust domain's own. -/
def listFederatedBundles (serverTD : String) (bundles : List TrustBundle) :
    List TrustBundle :=
  bundles.filter (fun x => !(x.trustDomainId = serverTD : Bool))

/-- Claim C7: every federated-bundle operation fails with exactly the message
`federated bundle id cannot match server trust domain` when the given
trust-domain id equals the server's (path-free) trust domain, fails with the
path-is-not-empty validation message for any id carrying a non-empty path, and
leaves the bundle store unchanged in both failure cases. -/
theorem federatedBundle_reject (serverTD : String) (bundles : List TrustBundle)
    (b : TrustBundle) (id : String) :
    (tdHasPath serverTD = false → b.trustDomainId = serverTD → id = serverTD →
      createFederatedBundle serverTD bundles b =
          (Except.error "federated bundle id cannot match server trust domain", bundles) ∧
        fetchFederatedBundle serverTD bundles id =
          (Except.error "federated bundle id cannot match server trust domain", bundles) ∧
        updateFederatedBundle serverTD bundles b =
          (Except.error "federated bundle id cannot match server trust domain", bundles) ∧
        deleteFederatedBundle serverTD bundles id =
          (Except.error "federated bundle id cannot match server trust domain", bundles)) ∧
      (tdHasPath b.trustDomainId = true → tdHasPath id = true →
        createFederatedBundle serverTD bundles b =
            (Except.error (tdPathErrMsg b.trustDomainId), bundles) ∧
          fetchFederatedBundle serverTD bundles id =
            (Except.error (tdPathErrMsg id), bundles) ∧
          updateFederatedBundle serverTD bundles b =
            (Except.error (tdPathErrMsg b.trustDomainId), bundles) ∧
          deleteFederatedBundle serverTD bundles id =
            (Except.error (tdPathErrMsg id), bundles)) := by
  constructor
  · intro hsrv hb hid
    have hvb : validateFederatedBundleId serverTD b.trustDomainId =
        some "federated bundle id cannot match server trust domain" := by
      rw [validateFederatedBundleId, hb, hsrv]
      simp
    have hvi : validateFederatedBundleId serverTD id =
        some "federated bundle id cannot match server trust domain" := by
      rw [validateFederatedBundleId, hid, hsrv]
      simp
    exact ⟨by simp only [createFederatedBundle, hvb],
      by simp only [fetchFederatedBundle, hvi],
      by simp only [updateFederatedBundle, hvb],
      by simp only [deleteFederatedBundle, hvi]⟩
  · intro hb hid
    have hvb : validateFederatedBundleId serverTD b.trustDomainId =
        some (tdPathErrMsg b.trustDomainId) := by
      rw [validateFederatedBundleId, hb]
      simp
    have hvi : validateFederatedBundleId serverTD id = some (tdPathErrMsg id) := by
      rw [validateFederatedBundleId, hid]
      simp
    exact ⟨by simp only [createFederatedBundle, hvb],
      by simp only [fetchFederatedBundle, hvi],
      by simp only [updateFederatedBundle, hvb],
      by simp only [deleteFederatedBundle, hvi]⟩

/-- Witness for C7: the inputs of the handler tests, `spiffe://example.org` as
the server trust domain and `spiffe://otherdomain.org/spire/agent` as the id
with a non-empty path, against a store holding one other-domain bundle. -/
theorem federatedBundle_reject_witness :
    (createFederatedBundle "spiffe://example.org"
          [⟨"spiffe://otherdomain.org", ["BLAH"]⟩] ⟨"spiffe://example.org", []⟩ =
        (Except.error "federated bundle id cannot match server trust domain",
          [⟨"spiffe://otherdomain.org", ["BLAH"]⟩]) ∧
      fetchFederatedBundle "spiffe://example.org"
          [⟨"spiffe://otherdomain.org", ["BLAH"]⟩] "spiffe://example.org" =
        (Except.error "federated bundle id cannot match server trust domain",
          [⟨"spiffe://otherdomain.org", ["BLAH"]⟩]) ∧
      updateFederatedBundle "spiffe://example.org"
          [⟨"spiffe://otherdomain.org", ["BLAH"]⟩] ⟨"spiffe://example.org", []⟩ =
        (Except.error "federated bundle id cannot match server trust domain",
          [⟨"spiffe://otherdomain.org", ["BLAH"]⟩]) ∧
      deleteFederatedBundle "spiffe://example.org"
          [⟨"spiffe://otherdomain.org", ["BLAH"]⟩] "spiffe://example.org" =
        (Except.error "federated bundle id cannot match server trust domain",
          [⟨"spiffe://otherdomain.org", ["BLAH"]⟩])) ∧
      (createFederatedBundle "spiffe://example.org"
            [⟨"spiffe://otherdomain.org", ["BLAH"]⟩]
            ⟨"spiffe://otherdomain.org/spire/agent", []⟩ =
          (Except.error (tdPathErrMsg "spiffe://otherdomain.org/spire/agent"),
            [⟨"spiffe://otherdomain.org", ["BLAH"]⟩]) ∧
        fetchFederatedBundle "spiffe://example.org"
            [⟨"spiffe://otherdomain.org", ["BLAH"]⟩]
            "spiffe://otherdomain.org/spire/agent" =
          (Except.error (tdPathErrMsg "spiffe://otherdomain.org/spire/agent"),
            [⟨"spiffe://otherdomain.org", ["BLAH"]⟩]) ∧
        updateFederatedBundle "spiffe://example.org"
            [⟨"spiffe://otherdomain.org", ["BLAH"]⟩]
            ⟨"spiffe://otherdomain.org/spire/agent", []⟩ =
          (Except.error (tdPathErrMsg "spiffe://otherdomain.org/spire/agent"),
            [⟨"spiffe://otherdomain.org", ["BLAH"]⟩]) ∧
        deleteFederatedBundle "spiffe://example.org"
            [⟨"spiffe://otherdomain.org", ["BLAH"]⟩]
            "spiffe://otherdomain.org/spire/agent" =
          (Except.error (tdPathErrMsg "spiffe://otherdomain.org/spire/agent"),
            [⟨"spiffe://otherdomain.org", ["BLAH"]⟩])) :=
  ⟨(federatedBundle_reject "spiffe://example.org"
      [⟨"spiffe://otherdomain.org", ["BLAH"]⟩] ⟨"spiffe://example.org", []⟩
      "spiffe://example.org").1 (by decide) rfl rfl,
   (federatedBundle_reject "spiffe://example.org"
      [⟨"spiffe://otherdomain.org", ["BLAH"]⟩]
      ⟨"spiffe://otherdomain.org/spire/agent", []⟩
      "spiffe://otherdomain.org/spire/agent").2 (by decide) (by decide)⟩

/-- Claim C8: the `ListFederatedBundles` stream yields exactly the stored
bundles whose trust domain differs from the server's, and never the server
trust domain's own bundle, even when one is stored. -/
theorem listFederatedBundles_mem_iff (serverTD : String) (bundles : List TrustBundle)
    (b : TrustBundle) :
    b ∈ listFederatedBundles serverTD bundles ↔
      b ∈ bundles ∧ b.trustDomainId ≠ serverTD := by
  simp [listFederatedBundles, List.mem_filter]

/-- Failure of `CreateJoinToken`. -/
inductive JoinTokenError where
  | invalidArgument (msg : String)
  | registrationFailed (msg : String)
deriving DecidableEq, Repr

/-- Modelled from the spec: `CreateJoinToken` of the registration API handler
(not in the snapshot, only its tests). Requires a positive TTL, uses the
supplied token or else the freshly generated one (`gen`, standing for the UUID
source), refuses a token already stored, and persists the token with expiry
`now + ttl`. Returns the response token and TTL with the resulting store. -/
def createJoinToken (tokens : List (String × Int)) (token : String) (ttl : Int)
    (now : Int) (gen : String) :
    Except JoinTokenError (String × Int) × List (String × Int) :=
  if ttl ≤ 0 then
    (Except.error (JoinTokenError.invalidArgument "Ttl is required"), tokens)
  else
    let t := if token = "" then gen else token
    if tokens.any (fun p => p.1 = t) then
      (Except.error (JoinTokenError.registrationFailed "Failed to register token"), tokens)
    else (Except.ok (t, ttl), tokens ++ [(t, now + ttl)])

/-- Claim C9: `CreateJoinToken` fails with an invalid-argument error for every
TTL at most zero; with a positive TTL it succeeds, echoing a supplied unused
token unchanged and otherwise returning the freshly generated non-empty token;
and a second create with the same token fails. -/
theorem createJoinToken_spec (tokens : List (String × Int)) (token : String)
    (ttl now : Int) (gen : String) :
    (ttl ≤ 0 →
      createJoinToken tokens token ttl now gen =
        (Except.error (JoinTokenError.invalidArgument "Ttl is required"), tokens)) ∧
      (0 < ttl → token ≠ "" → (∀ p ∈ tokens, p.1 ≠ token) →
        createJoinToken tokens token ttl now gen =
          (Except.ok (token, ttl), tokens ++ [(token, now + ttl)])) ∧
      (0 < ttl → token = "" → gen ≠ "" → (∀ p ∈ tokens, p.1 ≠ gen) →
        gen ≠ "" ∧
          createJoinToken tokens token ttl now gen =
            (Except.ok (gen, ttl), tokens ++ [(gen, now + ttl)])) ∧
      (0 < ttl → token ≠ "" →
        ∀ tokens', (token, now + ttl) ∈ tokens' →
          (createJoinToken tokens' token ttl now gen).1 =
            Except.error (JoinTokenError.registrationFailed "Failed to register token")) := by
  refine ⟨?_, ?_, ?_, ?_⟩
  · intro h
    simp only [createJoinToken, if_pos h]
  · intro hpos hne hfresh
    have hany : (tokens.any (fun p => p.1 = token)) = false := by
      rw [List.any_eq_false]
      intro p hp
      simpa using hfresh p hp
    simp only [createJoinToken, if_neg (not_le.mpr hpos), if_neg hne, hany,
      Bool.false_eq_true, if_false]
  · intro hpos hemp hgen hfresh
    have hany : (tokens.any (fun p => p.1 = gen)) = false := by
      rw [List.any_eq_false]
      intro p hp
      simpa using hfresh p hp
    refine ⟨hgen, ?_⟩
    simp only [createJoinToken, if_neg (not_le.mpr hpos), if_pos hemp, hany,
      Bool.false_eq_true, if_false]
  · intro hpos hne tokens' hmem
    have hany : (tokens'.any (fun p => p.1 = token)) = true := by
      rw [List.any_eq_true]
      exact ⟨(token, now + ttl), hmem, by simp⟩
    simp only [createJoinToken, if_neg (not_le.mpr hpos), if_neg hne, hany, if_true]

/-- Witness for C9: the scenarios of the handler test - a zero TTL, a
generated token, the supplied token `foo`, and the duplicate `foo`. -/
theorem createJoinToken_spec_witness :
    (createJoinToken [] "foo" 0 50 "u1" =
        (Except.error (JoinTokenError.invalidArgument "Ttl is required"), [])) ∧
      (createJoinToken [] "foo" 1 50 "u1" =
        (Except.ok ("foo", 1), [("foo", 51)])) ∧
      (("u1" : String) ≠ "" ∧
        createJoinToken [] "" 1 50 "u1" = (Except.ok ("u1", 1), [("u1", 51)])) ∧
      ((createJoinToken [("foo", 51)] "foo" 1 50 "u1").1 =
        Except.error (JoinTokenError.registrationFailed "Failed to register token")) := by
  have h := createJoinToken_spec [] "foo" 1 50 "u1"
  have hz := createJoinToken_spec [] "foo" 0 50 "u1"
  have hg := createJoinToken_spec [] "" 1 50 "u1"
  exact ⟨hz.1 (by decide),
    h.2.1 (by decide) (by decide) (by intro p hp; cases hp),
    hg.2.2.1 (by decide) rfl (by decide) (by intro p hp; cases hp),
    h.2.2.2 (by decide) (by decide) [("foo", 51)] (by decide)⟩

/-- Status error returned by the v1 entry service. -/
inductive EntryServiceError where
  | unimplemented (msg : String)
deriving DecidableEq, Repr

/-- The datastore held by the v1 entry service (`Service.ds` in
`pkg/server/api/entry/v1/service.go`). -/
structure EntryDatastore where
  entries : List RegistrationEntry
deriving DecidableEq, Repr

/-- Request of `ListEntries` (payload irrelevant to the service). -/
structure ListEntriesRequest where
  pageSize : Int
deriving DecidableEq, Repr

/-- Request of `GetEntry`. -/
structure GetEntryRequest where
  id : String
deriving DecidableEq, Repr

/-- Request of `BatchCreateEntry`. -/
structure BatchCreateEntryRequest where
  entries : List RegistrationEntry
deriving DecidableEq, Repr

/-- Request of `BatchUpdateEntry`. -/
structure BatchUpdateEntryRequest where
  entries : List RegistrationEntry
deriving DecidableEq, Repr

/-- Request of `BatchDeleteEntry`. -/
structure BatchDeleteEntryRequest where
  ids : List String
deriving DecidableEq, Repr

/-- Request of `GetAuthorizedEntries`. -/
structure GetAuthorizedEntriesRequest where
  unused : Int
deriving DecidableEq, Repr

/-- `ListEntries` of the v1 entry service: returns a nil response and an
Unimplemented status without touching the datastore. -/
def listEntriesV1 (ds : EntryDatastore) (_req : ListEntriesRequest) :
    Except EntryServiceError (List RegistrationEntry) × EntryDatastore :=
  (Except.error (EntryServiceError.unimplemented "method ListEntries not implemented"), ds)

/-- `GetEntry` of the v1 entry service. -/
def getEntryV1 (ds : EntryDatastore) (_req : GetEntryRequest) :
    Except EntryServiceError RegistrationEntry × EntryDatastore :=
  (Except.error (EntryServiceError.unimplemented "method GetEntry not implemented"), ds)

/-- `BatchCreateEntry` of the v1 entry service. -/
def batchCreateEntryV1 (ds : EntryDatastore) (_req : BatchCreateEntryRequest) :
    Except EntryServiceError (List RegistrationEntry) × EntryDatastore :=
  (Except.error (EntryServiceError.unimplemented "method BatchCreateEntry not implemented"), ds)

/-- `BatchUpdateEntry` of the v1 entry service. -/
def batchUpdateEntryV1 (ds : EntryDatastore) (_req : BatchUpdateEntryRequest) :
    Except EntryServiceError (List RegistrationEntry) × EntryDatastore :=
  (Except.error (EntryServiceError.unimplemented "method BatchUpdateEntry not implemented"), ds)

/-- `BatchDeleteEntry` of the v1 entry service. -/
def batchDeleteEntryV1 (ds : EntryDatastore) (_req : BatchDeleteEntryRequest) :
    Except EntryServiceError (List String) × EntryDatastore :=
  (Except.error (EntryServiceError.unimplemented "method BatchDeleteEntry not implemented"), ds)

/-- `GetAuthorizedEntries` of the v1 entry service. -/
def getAuthorizedEntriesV1 (ds : EntryDatastore) (_req : GetAuthorizedEntriesRequest) :
    Except EntryServiceError (List RegistrationEntry) × EntryDatastore :=
  (Except.error (EntryServiceError.unimplemented "method GetAuthorizedEntries not implemented"), ds)

/-- Claim C10: every RPC of the v1 entry service returns a nil response with
an Unimplemented error naming the method, for every request and every
datastore state, and leaves the datastore unchanged. -/
theorem entryServiceV1_unimplemented (ds : EntryDatastore) (r1 : ListEntriesRequest)
    (r2 : GetEntryRequest) (r3 : BatchCreateEntryRequest) (r4 : BatchUpdateEntryRequest)
    (r5 : BatchDeleteEntryRequest) (r6 : GetAuthorizedEntriesRequest) :
    listEntriesV1 ds r1 =
        (Except.error (EntryServiceError.unimplemented "method ListEntries not implemented"), ds) ∧
      getEntryV1 ds r2 =
        (Except.error (EntryServiceError.unimplemented "method GetEntry not implemented"), ds) ∧
      batchCreateEntryV1 ds r3 =
        (Except.error (EntryServiceError.unimplemented "method BatchCreateEntry not implemented"), ds) ∧
      batchUpdateEntryV1 ds r4 =
        (Except.error (EntryServiceError.unimplemented "method BatchUpdateEntry not implemented"), ds) ∧
      batchDeleteEntryV1 ds r5 =
        (Except.error (EntryServiceError.unimplemented "method BatchDeleteEntry not implemented"), ds) ∧
      getAuthorizedEntriesV1 ds r6 =
        (Except.error (EntryServiceError.unimplemented "method GetAuthorizedEntries not implemented"), ds) :=
  ⟨rfl, rfl, rfl, rfl, rfl, rfl⟩
